import Mathlib

/-!
# Patient Encounter System — verification of the scheduling core

Shallow embedding of the appointment scheduling and query logic of the
patient-encounter-system repository.  Instants are modelled as integers
(minutes since an arbitrary UTC epoch); a Python `datetime` becomes a pair
of an instant and an awareness flag (`tzinfo is None` ↔ `aware = false`);
for a naive value the instant field records its wall-clock reading taken
as UTC, which is exactly what `replace(tzinfo=timezone.utc)` produces.
The SQLAlchemy session is a `Store` record; `db.query(...).filter(...)`
becomes a list filter and `order_by` an insertion sort.
-/

namespace PES

/-- A Python `datetime`: an instant (minutes) plus whether it carries an
explicit timezone (`aware = false` models `tzinfo is None`). -/
structure DT where
  time : Int
  aware : Bool
deriving DecidableEq, Repr

/-- Persisted Doctor record, from `src/models/doctor.py`. -/
structure Doctor where
  id : Nat
  full_name : String
  specialization : String
  is_active : Bool
  created_at : Int
deriving DecidableEq, Repr

/-- Persisted Appointment record, from `src/models/appointment.py`. -/
structure Appointment where
  id : Nat
  patient_id : Nat
  doctor_id : Nat
  start_datetime : DT
  duration_minutes : Int
  reason : Option String
deriving DecidableEq, Repr

/-- The errors raised on the scheduling path (`ValueError` messages in
`src/schemas/appointment.py` and `src/services/appointment_service.py`,
plus the endpoint's not-found case). -/
inductive SchedError where
  | DurationOutOfRange
  | TimezoneRequired
  | ScheduledInPast
  | DoctorNotFound
  | DoctorInactive
  | SchedulingConflict
deriving DecidableEq, Repr

/-- Request body `AppointmentCreate`, from `src/schemas/appointment.py`. -/
structure AppointmentCreate where
  patient_id : Nat
  doctor_id : Nat
  start_datetime : DT
  duration_minutes : Int
  reason : Option String
deriving DecidableEq, Repr

/-- The persisted state seen through the SQLAlchemy session: doctors,
appointments, and the autoincrement counter for appointment ids. -/
structure Store where
  doctors : List Doctor
  appointments : List Appointment
  nextApptId : Nat
deriving DecidableEq, Repr

/-- Validator `AppointmentCreate.validate_duration`:
`if not 15 <= v <= 180: raise ValueError(...)`. -/
def validate_duration (v : Int) : Except SchedError Int :=
  if ¬ (15 ≤ v ∧ v ≤ 180) then .error .DurationOutOfRange else .ok v

/-- Validator `AppointmentCreate.validate_start_datetime`: reject naive datetimes,
then reject `v <= datetime.now(timezone.utc)`.  The reference `now` is a
parameter so the whole request pipeline is deterministic. -/
def validate_start_datetime (v : DT) (now : Int) : Except SchedError DT :=
  if v.aware = false then .error .TimezoneRequired
  else if v.time ≤ now then .error .ScheduledInPast
  else .ok v

/-- Pydantic model validation: both field validators run and every raised
error is collected into the resulting `ValidationError` (field order:
`duration_minutes` is declared before... the validators are attached to
`duration_minutes` and `start_datetime` respectively; both always run). -/
def validationErrors (req : AppointmentCreate) (now : Int) : List SchedError :=
  (match validate_duration req.duration_minutes with
   | .error e => [e]
   | .ok _ => []) ++
  (match validate_start_datetime req.start_datetime now with
   | .error e => [e]
   | .ok _ => [])

/-- Helper `_ensure_timezone_aware` in `src/services/appointment_service.py`:
`if dt.tzinfo is None: return dt.replace(tzinfo=timezone.utc)`. -/
def ensure_timezone_aware (dt : DT) : DT :=
  if dt.aware = false then { dt with aware := true } else dt

/-- Lookup `db.query(Doctor).filter(Doctor.id == doctor_id).first()`. -/
def findDoctor (db : Store) (doctor_id : Nat) : Option Doctor :=
  (db.doctors.filter (fun d => d.id == doctor_id)).head?

/-- The loop body of the conflict scan in `create_appointment`:
`start_time < existing_end and appointment_end > existing_start`. -/
def conflictsWith (start_time appointment_end : Int) (existing : Appointment) : Bool :=
  let existing_start := (ensure_timezone_aware existing.start_datetime).time
  let existing_end := existing_start + existing.duration_minutes
  decide (start_time < existing_end) && decide (appointment_end > existing_start)

/-- Service function `create_appointment` in `src/services/appointment_service.py`.
Returns the session state (unchanged when a `ValueError` is raised, since
every raise happens before `db.add`) together with the outcome. -/
def create_appointment (db : Store) (data : AppointmentCreate) (now : Int) :
    Store × Except SchedError Appointment :=
  match findDoctor db data.doctor_id with
  | none => (db, .error .DoctorNotFound)
  | some doctor =>
    if doctor.is_active = false then (db, .error .DoctorInactive)
    else
      let start_time := ensure_timezone_aware data.start_datetime
      let appointment_end := start_time.time + data.duration_minutes
      if start_time.time < now then (db, .error .ScheduledInPast)
      else
        let existing_appointments :=
          db.appointments.filter (fun a => a.doctor_id == data.doctor_id)
        if existing_appointments.any
            (fun e => conflictsWith start_time.time appointment_end e) then
          (db, .error .SchedulingConflict)
        else
          let appointment : Appointment :=
            { id := db.nextApptId
              patient_id := data.patient_id
              doctor_id := data.doctor_id
              start_datetime := start_time
              duration_minutes := data.duration_minutes
              reason := data.reason }
          ({ db with
              appointments := db.appointments ++ [appointment]
              nextApptId := db.nextApptId + 1 },
           .ok appointment)

/-- The full schedule request path of `POST /appointments`: pydantic
validation of the body (`AppointmentCreate`) and, only when it raises no
error, the service call `create_appointment`. -/
def schedule (db : Store) (req : AppointmentCreate) (now : Int) :
    Except (List SchedError) (Store × Appointment) :=
  match validationErrors req now with
  | [] =>
    match create_appointment db req now with
    | (db2, .ok a) => .ok (db2, a)
    | (_, .error e) => .error [e]
  | es => .error es

/-- Ordering used by `order_by(Appointment.start_datetime)`. -/
def apptLE (a b : Appointment) : Prop :=
  a.start_datetime.time ≤ b.start_datetime.time

instance : DecidableRel apptLE := fun a b => Int.decLe _ _

instance : IsTotal Appointment apptLE := ⟨fun a b => Int.le_total _ _⟩

instance : IsTrans Appointment apptLE := ⟨fun _ _ _ => Int.le_trans⟩

/-- Python `date.replace(hour=0, minute=0, second=0, microsecond=0)` on an
instant measured in minutes: floor to the enclosing UTC day boundary. -/
def midnightOf (t : Int) : Int := 1440 * Int.fdiv t 1440

/-- Query `get_appointments_by_doctor_and_date` in
`src/services/appointment_service.py` (the caller always passes a
timezone-aware date, which the source asserts). -/
def get_appointments_by_doctor_and_date (db : Store) (doctor_id : Nat) (date : DT) :
    Except SchedError (List Appointment) :=
  if date.aware = false then .error .TimezoneRequired
  else
    let day_start := midnightOf date.time
    let day_end := day_start + 1440
    .ok (List.insertionSort apptLE
      (db.appointments.filter (fun a =>
        a.doctor_id == doctor_id &&
        decide (day_start ≤ a.start_datetime.time) &&
        decide (a.start_datetime.time < day_end))))

/-- Python truthiness of the optional `doctor_id` query parameter:
`None` and `0` are falsy. -/
def truthy : Option Nat → Bool
  | none => false
  | some n => n != 0

/-- Endpoint `list_appointments_endpoint` in `src/main.py`: parse the `YYYY-MM-DD`
date to midnight UTC (modelled as the day number `day`, so the parsed
instant is `1440 * day`), then either the doctor-filtered service query
(when `doctor_id` is truthy) or the inline unfiltered day query. -/
def list_appointments_endpoint (db : Store) (day : Int) (doctor_id : Option Nat) :
    Except SchedError (List Appointment) :=
  let parsed_date : DT := { time := 1440 * day, aware := true }
  if truthy doctor_id then
    get_appointments_by_doctor_and_date db (doctor_id.getD 0) parsed_date
  else
    let day_start := midnightOf parsed_date.time
    let day_end := day_start + 1440
    .ok (List.insertionSort apptLE
      (db.appointments.filter (fun a =>
        decide (day_start ≤ a.start_datetime.time) &&
        decide (a.start_datetime.time < day_end))))

/-- Update schema `DoctorUpdate` from `src/schemas/doctor.py`: all three fields optional. -/
structure DoctorUpdate where
  full_name : Option String
  specialization : Option String
  is_active : Option Bool
deriving DecidableEq, Repr

/-- The three `if ... is not None` mutations of `update_doctor_endpoint`. -/
def applyDoctorUpdate (u : DoctorUpdate) (d : Doctor) : Doctor :=
  let d1 := match u.full_name with
    | some v => { d with full_name := v }
    | none => d
  let d2 := match u.specialization with
    | some v => { d1 with specialization := v }
    | none => d1
  match u.is_active with
  | some v => { d2 with is_active := v }
  | none => d2

/-- Mutating the object returned by `.first()` updates the first stored
row with that id (primary keys are unique, so at most one matches). -/
def updateFirstDoctor (i : Nat) (f : Doctor → Doctor) : List Doctor → List Doctor
  | [] => []
  | d :: rest =>
    if d.id == i then f d :: rest else d :: updateFirstDoctor i f rest

/-- Endpoint `update_doctor_endpoint` in `src/main.py`, the PUT doctors route. -/
def update_doctor_endpoint (db : Store) (doctor_id : Nat) (u : DoctorUpdate) :
    Except SchedError (Store × Doctor) :=
  match findDoctor db doctor_id with
  | none => .error .DoctorNotFound
  | some doctor =>
    .ok ({ db with doctors := updateFirstDoctor doctor_id (applyDoctorUpdate u) db.doctors },
         applyDoctorUpdate u doctor)

/-- The half-open interval overlap condition as the spec words it:
`candidateStart < existingEnd AND existingStart < candidateEnd`
(to be compared with `conflictsWith`, which is taken from the source). -/
def specOverlap (candidateStart candidateEnd : Int) (e : Appointment) : Prop :=
  candidateStart < (ensure_timezone_aware e.start_datetime).time + e.duration_minutes ∧
  (ensure_timezone_aware e.start_datetime).time < candidateEnd

instance (s t : Int) (e : Appointment) : Decidable (specOverlap s t e) := by
  unfold specOverlap; infer_instance

/-! ## Helper lemmas -/

theorem conflictsWith_iff_specOverlap (s t : Int) (e : Appointment) :
    conflictsWith s t e = true ↔ specOverlap s t e := by
  simp [conflictsWith, specOverlap, Bool.and_eq_true, decide_eq_true_eq, gt_iff_lt]

theorem midnightOf_day (day : Int) : midnightOf (1440 * day) = 1440 * day := by
  unfold midnightOf
  rw [Int.mul_fdiv_cancel_left day (by norm_num)]

theorem schedule_of_invalid (db : Store) (req : AppointmentCreate) (now : Int)
    (h : validationErrors req now ≠ []) :
    schedule db req now = .error (validationErrors req now) := by
  unfold schedule
  cases hv : validationErrors req now with
  | nil => exact absurd hv h
  | cons e es => rfl

theorem ensure_timezone_aware_of_aware {dt : DT} (h : dt.aware = true) :
    ensure_timezone_aware dt = dt := by
  unfold ensure_timezone_aware
  simp [h]

/-! ## Claims -/

/-- C6: `validate_duration` accepts an integer duration `d` iff
`15 ≤ d ≤ 180`; in particular 14 and 181 are rejected while 15 and 180
are accepted. -/
theorem duration_accepted_iff_in_bounds :
    (∀ d : Int, validate_duration d = .ok d ↔ (15 ≤ d ∧ d ≤ 180)) ∧
    validate_duration 14 = .error .DurationOutOfRange ∧
    validate_duration 181 = .error .DurationOutOfRange ∧
    validate_duration 15 = .ok 15 ∧
    validate_duration 180 = .ok 180 := by
  refine ⟨fun d => ?_, rfl, rfl, rfl, rfl⟩
  unfold validate_duration
  by_cases h : 15 ≤ d ∧ d ≤ 180 <;> simp [h]

/-- C10: in the list-appointments endpoint, `doctor_id = 0` is falsy, so
the query falls through to the unfiltered branch and behaves exactly as
if no `doctor_id` had been supplied: it returns every doctor's
appointments for that date. -/
theorem doctor_id_zero_is_unfiltered (db : Store) (day : Int) :
    list_appointments_endpoint db day (some 0) =
      list_appointments_endpoint db day none ∧
    list_appointments_endpoint db day (some 0) =
      .ok (List.insertionSort apptLE
        (db.appointments.filter (fun a =>
          decide (1440 * day ≤ a.start_datetime.time) &&
          decide (a.start_datetime.time < 1440 * day + 1440)))) := by
  constructor
  · rfl
  · simp [list_appointments_endpoint, truthy, midnightOf_day]

/-- Concrete state for C9: two active doctors; patient 1 already holds a
60-minute appointment with doctor 1 starting at instant 1000. -/
def storeC9 : Store :=
  { doctors :=
      [{ id := 1, full_name := "Dr. A", specialization := "Cardiology",
         is_active := true, created_at := 0 },
       { id := 2, full_name := "Dr. B", specialization := "Neurology",
         is_active := true, created_at := 0 }],
    appointments :=
      [{ id := 1, patient_id := 1, doctor_id := 1,
         start_datetime := { time := 1000, aware := true },
         duration_minutes := 60, reason := none }],
    nextApptId := 2 }

/-- The C9 request: the same patient 1, the other doctor 2, at the very
same instant 1000 for 60 minutes. -/
def reqC9 : AppointmentCreate :=
  { patient_id := 1, doctor_id := 2,
    start_datetime := { time := 1000, aware := true },
    duration_minutes := 60, reason := none }

/-- C9: the conflict scan filters by the request's doctor only, so a
patient already booked with doctor 1 at [1000, 1060) is double-booked
with doctor 2 over the identical interval without any error: the
candidate interval overlaps the stored appointment, yet scheduling
succeeds and appends a second appointment. -/
theorem patient_double_booked_across_doctors :
    (∀ e ∈ storeC9.appointments, specOverlap 1000 1060 e) ∧
    (create_appointment storeC9 reqC9 500).2 =
      .ok { id := 2, patient_id := 1, doctor_id := 2,
            start_datetime := { time := 1000, aware := true },
            duration_minutes := 60, reason := none } ∧
    ((create_appointment storeC9 reqC9 500).1).appointments.length = 2 := by
  refine ⟨by decide, rfl, rfl⟩

/-- Once the doctor/active/past gates have been passed, the service call
reduces to the conflict scan: an error on conflict, otherwise the insert. -/
theorem create_appointment_conflict_step (db : Store) (req : AppointmentCreate)
    (now : Int) (doc : Doctor)
    (hdoc : findDoctor db req.doctor_id = some doc)
    (hact : doc.is_active = true)
    (hfut : ¬ (ensure_timezone_aware req.start_datetime).time < now) :
    create_appointment db req now =
      (if (db.appointments.filter (fun a => a.doctor_id == req.doctor_id)).any
          (fun e => conflictsWith (ensure_timezone_aware req.start_datetime).time
            ((ensure_timezone_aware req.start_datetime).time + req.duration_minutes) e)
       then (db, Except.error SchedError.SchedulingConflict)
       else ({ db with
                appointments := db.appointments ++
                  [{ id := db.nextApptId, patient_id := req.patient_id,
                     doctor_id := req.doctor_id,
                     start_datetime := ensure_timezone_aware req.start_datetime,
                     duration_minutes := req.duration_minutes,
                     reason := req.reason }]
                nextApptId := db.nextApptId + 1 },
             Except.ok { id := db.nextApptId, patient_id := req.patient_id,
                         doctor_id := req.doctor_id,
                         start_datetime := ensure_timezone_aware req.start_datetime,
                         duration_minutes := req.duration_minutes,
                         reason := req.reason })) := by
  unfold create_appointment
  rw [hdoc]
  simp only [hact, Bool.true_eq_false, if_false, if_neg hfut]

/-- C1: with the doctor present and active and the start not in the past,
the service rejects with `SchedulingConflict` iff some stored appointment
of the same doctor satisfies the spec's half-open overlap condition
`candidateStart < existingEnd AND existingStart < candidateEnd`; and an
appointment ending exactly at the candidate start, or starting exactly at
the candidate end, never satisfies that condition. -/
theorem conflict_iff_overlap_same_doctor (db : Store) (req : AppointmentCreate)
    (now : Int) (doc : Doctor)
    (hdoc : findDoctor db req.doctor_id = some doc)
    (hact : doc.is_active = true)
    (hfut : ¬ (ensure_timezone_aware req.start_datetime).time < now) :
    ((create_appointment db req now).2 = .error .SchedulingConflict ↔
      ∃ e ∈ db.appointments, e.doctor_id = req.doctor_id ∧
        specOverlap (ensure_timezone_aware req.start_datetime).time
          ((ensure_timezone_aware req.start_datetime).time + req.duration_minutes) e) ∧
    (∀ e : Appointment,
      ((ensure_timezone_aware e.start_datetime).time + e.duration_minutes =
          (ensure_timezone_aware req.start_datetime).time ∨
       (ensure_timezone_aware e.start_datetime).time =
          (ensure_timezone_aware req.start_datetime).time + req.duration_minutes) →
      ¬ specOverlap (ensure_timezone_aware req.start_datetime).time
          ((ensure_timezone_aware req.start_datetime).time + req.duration_minutes) e) := by
  constructor
  · rw [create_appointment_conflict_step db req now doc hdoc hact hfut]
    split
    · rename_i hany
      simp only [List.any_eq_true, List.mem_filter, Bool.and_eq_true, beq_iff_eq,
        conflictsWith_iff_specOverlap] at hany
      simp only [true_iff]
      obtain ⟨e, ⟨he, hdid⟩, hov⟩ := hany
      exact ⟨e, he, hdid, hov⟩
    · rename_i hany
      simp only [List.any_eq_true, List.mem_filter, Bool.and_eq_true, beq_iff_eq,
        conflictsWith_iff_specOverlap] at hany
      constructor
      · intro h
        simp at h
      · intro ⟨e, he, hdid, hov⟩
        exact absurd ⟨e, ⟨he, hdid⟩, hov⟩ hany
  · intro e hends hov
    rcases hov with ⟨h1, h2⟩
    rcases hends with h3 | h3 <;> omega

/-- With the candidate start not in the past, the service never raises
the scheduled-in-past error. -/
theorem create_appointment_not_past (db : Store) (req : AppointmentCreate)
    (now : Int)
    (hfut : ¬ (ensure_timezone_aware req.start_datetime).time < now) :
    (create_appointment db req now).2 ≠ .error .ScheduledInPast := by
  unfold create_appointment
  split
  · simp
  · split
    · simp
    · rw [if_neg hfut]
      dsimp only
      split <;> simp

/-- C5: for a timezone-aware start instant `t`, the request fails with
the scheduled-in-past error whenever `t ≤ now` (equality included), and
when `t` is strictly after `now` no scheduled-in-past error arises on any
path of the request. -/
theorem start_in_past_rejected_iff (db : Store) (req : AppointmentCreate)
    (now : Int) (haware : req.start_datetime.aware = true) :
    (req.start_datetime.time ≤ now →
      SchedError.ScheduledInPast ∈ validationErrors req now ∧
      schedule db req now = .error (validationErrors req now)) ∧
    (now < req.start_datetime.time →
      SchedError.ScheduledInPast ∉ validationErrors req now ∧
      ∀ es, schedule db req now = .error es →
        SchedError.ScheduledInPast ∉ es) := by
  constructor
  · intro hle
    have hval : validate_start_datetime req.start_datetime now =
        .error .ScheduledInPast := by
      unfold validate_start_datetime
      simp [haware, hle]
    have hmem : SchedError.ScheduledInPast ∈ validationErrors req now := by
      unfold validationErrors
      rw [hval]
      exact List.mem_append_right _ (List.mem_singleton.mpr rfl)
    exact ⟨hmem, schedule_of_invalid db req now (List.ne_nil_of_mem hmem)⟩
  · intro hlt
    have hval : validate_start_datetime req.start_datetime now = .ok req.start_datetime := by
      unfold validate_start_datetime
      simp [haware]
      omega
    have hnotmem : SchedError.ScheduledInPast ∉ validationErrors req now := by
      unfold validationErrors
      rw [hval]
      by_cases hd : 15 ≤ req.duration_minutes ∧ req.duration_minutes ≤ 180 <;>
        simp [validate_duration, hd]
    refine ⟨hnotmem, fun es hes => ?_⟩
    unfold schedule at hes
    cases hv : validationErrors req now with
    | nil =>
      rw [hv] at hes
      have hfut : ¬ (ensure_timezone_aware req.start_datetime).time < now := by
        rw [ensure_timezone_aware_of_aware haware]
        omega
      have hne := create_appointment_not_past db req now hfut
      cases hc : create_appointment db req now with
      | mk db2 r =>
        cases r with
        | ok a => rw [hc] at hes; exact absurd hes (by simp)
        | error e =>
          rw [hc] at hes
          simp only at hes
          cases hes
          rw [hc] at hne
          simp only [ne_eq, Except.error.injEq] at hne
          simp [List.mem_singleton]
          intro h
          exact hne (by rw [h])
    | cons x xs =>
      rw [hv] at hes
      simp only at hes
      cases hes
      rw [← hv]
      exact hnotmem

/-- C2: the service call performs exactly one insert on success (the new
row is appended and the doctor table untouched) and leaves the persisted
state unchanged on every rejection. -/
theorem schedule_writes (db : Store) (req : AppointmentCreate) (now : Int)
    (db2 : Store) (r : Except SchedError Appointment)
    (h : create_appointment db req now = (db2, r)) :
    (∀ a, r = .ok a →
      db2.appointments = db.appointments ++ [a] ∧ db2.doctors = db.doctors) ∧
    (∀ e, r = .error e → db2 = db) := by
  unfold create_appointment at h
  split at h
  · rw [Prod.mk.injEq] at h
    obtain ⟨h1, h2⟩ := h
    subst h1; subst h2
    exact ⟨fun a ha => by simp at ha, fun e _ => rfl⟩
  · split at h
    · rw [Prod.mk.injEq] at h
      obtain ⟨h1, h2⟩ := h
      subst h1; subst h2
      exact ⟨fun a ha => by simp at ha, fun e _ => rfl⟩
    · dsimp only at h
      split at h
      · rw [Prod.mk.injEq] at h
        obtain ⟨h1, h2⟩ := h
        subst h1; subst h2
        exact ⟨fun a ha => by simp at ha, fun e _ => rfl⟩
      · split at h
        · rw [Prod.mk.injEq] at h
          obtain ⟨h1, h2⟩ := h
          subst h1; subst h2
          exact ⟨fun a ha => by simp at ha, fun e _ => rfl⟩
        · rw [Prod.mk.injEq] at h
          obtain ⟨h1, h2⟩ := h
          subst h1; subst h2
          refine ⟨fun a ha => ?_, fun e he => by simp at he⟩
          cases ha
          exact ⟨rfl, rfl⟩

/-- Witness for C2: scheduling `reqC9` against `storeC9` succeeds and the
resulting state is the previous appointment list with exactly the new row
appended, doctors untouched. -/
theorem schedule_writes_witness :
    ((create_appointment storeC9 reqC9 500).1).appointments =
        storeC9.appointments ++
          [{ id := 2, patient_id := 1, doctor_id := 2,
             start_datetime := { time := 1000, aware := true },
             duration_minutes := 60, reason := none }] ∧
    ((create_appointment storeC9 reqC9 500).1).doctors = storeC9.doctors :=
  (schedule_writes storeC9 reqC9 500 _ _ rfl).1 _ rfl

/-- The C3 request: its start carries no offset (a naive datetime). -/
def reqC3 : AppointmentCreate :=
  { patient_id := 1, doctor_id := 1,
    start_datetime := { time := 10000, aware := false },
    duration_minutes := 30, reason := none }

/-- C3 counterexample: a schedule request whose start_datetime lacks an
explicit offset IS rejected — the schema validator raises the
timezone-aware requirement and processing stops. -/
theorem naive_start_is_rejected :
    schedule storeC9 reqC3 500 = .error [SchedError.TimezoneRequired] := rfl

/-- C3 amended: a naive start_datetime is rejected by the schema
validator with the timezone-aware requirement; the service helper
`_ensure_timezone_aware` does interpret a naive value as UTC (same
instant, made aware), but only values that bypass the schema reach it. -/
theorem naive_start_rejected_by_schema (db : Store) (req : AppointmentCreate)
    (now : Int) (h : req.start_datetime.aware = false) :
    SchedError.TimezoneRequired ∈ validationErrors req now ∧
    schedule db req now = .error (validationErrors req now) ∧
    ensure_timezone_aware req.start_datetime =
      { time := req.start_datetime.time, aware := true } := by
  have hval : validate_start_datetime req.start_datetime now =
      .error .TimezoneRequired := by
    unfold validate_start_datetime
    simp [h]
  have hmem : SchedError.TimezoneRequired ∈ validationErrors req now := by
    unfold validationErrors
    rw [hval]
    exact List.mem_append_right _ (List.mem_singleton.mpr rfl)
  refine ⟨hmem, schedule_of_invalid db req now (List.ne_nil_of_mem hmem), ?_⟩
  unfold ensure_timezone_aware
  simp [h]

/-- Witness for the amended C3 at the concrete naive request `reqC3`. -/
theorem naive_start_rejected_by_schema_witness :
    SchedError.TimezoneRequired ∈ validationErrors reqC3 500 ∧
    schedule storeC9 reqC3 500 = .error (validationErrors reqC3 500) ∧
    ensure_timezone_aware reqC3.start_datetime =
      { time := reqC3.start_datetime.time, aware := true } :=
  naive_start_rejected_by_schema storeC9 reqC3 500 rfl

/-- The C4 state: a single doctor, flagged inactive. -/
def storeC4 : Store :=
  { doctors := [{ id := 1, full_name := "Dr. C", specialization := "GP",
                  is_active := false, created_at := 0 }],
    appointments := [], nextApptId := 1 }

/-- The C4 request: names doctor 1, start instant 100 (in the past for
the reference time 200 used below). -/
def reqC4 : AppointmentCreate :=
  { patient_id := 1, doctor_id := 1,
    start_datetime := { time := 100, aware := true },
    duration_minutes := 30, reason := none }

/-- C4 counterexample: a request against the inactive doctor whose start
is in the past (start 100, now 200) is rejected by the schema's future
check with the scheduled-in-past error — not with `DoctorInactive`. -/
theorem inactive_doctor_past_start_gives_past_error :
    schedule storeC4 reqC4 200 = .error [SchedError.ScheduledInPast] ∧
    SchedError.DoctorInactive ∉ [SchedError.ScheduledInPast] :=
  ⟨rfl, by decide⟩

/-- C4 amended: at the service layer the inactive-doctor check precedes
the time check, so `create_appointment` on an inactive doctor returns
`DoctorInactive` regardless of the start time (past included); the full
request path returns `DoctorInactive` whenever the schema validators
raise nothing — a start failing the schema's checks is rejected there
with that validation error instead. -/
theorem inactive_doctor_rejected (db : Store) (req : AppointmentCreate)
    (now : Int) (doc : Doctor)
    (hdoc : findDoctor db req.doctor_id = some doc)
    (hinact : doc.is_active = false) :
    create_appointment db req now = (db, .error .DoctorInactive) ∧
    (validationErrors req now = [] →
      schedule db req now = .error [SchedError.DoctorInactive]) := by
  have hserv : create_appointment db req now = (db, .error .DoctorInactive) := by
    unfold create_appointment
    rw [hdoc]
    simp [hinact]
  refine ⟨hserv, fun hv => ?_⟩
  unfold schedule
  rw [hv]
  dsimp only
  rw [hserv]

/-- Witness for the amended C4: the concrete inactive doctor of
`storeC4`, with a past start (100 < now = 200), still yields
`DoctorInactive` from the service call. -/
theorem inactive_doctor_rejected_witness :
    create_appointment storeC4 reqC4 200 = (storeC4, .error .DoctorInactive) :=
  (inactive_doctor_rejected storeC4 reqC4 200
    { id := 1, full_name := "Dr. C", specialization := "GP",
      is_active := false, created_at := 0 } rfl rfl).1

/-- The day-window-and-doctor restriction exactly as the spec words it:
`day_start ≤ start_datetime < day_end`, additionally filtered by the
doctor when one is supplied. -/
def specDayFilter (day : Int) (docId : Option Nat) (a : Appointment) : Bool :=
  (match docId with
   | none => true
   | some n => a.doctor_id == n) &&
  decide (1440 * day ≤ a.start_datetime.time) &&
  decide (a.start_datetime.time < 1440 * day + 1440)

theorem get_by_doctor_eq (db : Store) (i : Nat) (d : DT) (h : d.aware = true) :
    get_appointments_by_doctor_and_date db i d =
      .ok (List.insertionSort apptLE (db.appointments.filter
        (fun a => a.doctor_id == i &&
          decide (midnightOf d.time ≤ a.start_datetime.time) &&
          decide (a.start_datetime.time < midnightOf d.time + 1440)))) := by
  unfold get_appointments_by_doctor_and_date
  simp [h]

/-- C7 counterexample: `storeC9` holds one appointment, for doctor 1 at
instant 1000 (inside day 0); the endpoint with doctorId = 0 supplied
returns that appointment, whereas restriction to doctor 0 (as the claim
states for every supplied doctorId) would give the empty list. -/
theorem doctor_zero_not_restricted :
    list_appointments_endpoint storeC9 0 (some 0) =
      .ok [{ id := 1, patient_id := 1, doctor_id := 1,
             start_datetime := { time := 1000, aware := true },
             duration_minutes := 60, reason := none }] ∧
    storeC9.appointments.filter (specDayFilter 0 (some 0)) = [] :=
  ⟨rfl, rfl⟩

/-- C7 (amended: the doctor restriction applies when a NONZERO doctorId
is supplied; doctorId = 0 falls through to the unfiltered listing): the
endpoint returns precisely the stored appointments of the UTC day window
`day_start ≤ start_datetime < day_start + 24h`, restricted to the doctor
when one (nonzero) is supplied, ordered ascending by start_datetime. -/
theorem list_by_date_filter_sorted (db : Store) (day : Int)
    (docId : Option Nat) (h : ∀ n, docId = some n → n ≠ 0) :
    ∃ res, list_appointments_endpoint db day docId = .ok res ∧
      res.Perm (db.appointments.filter (specDayFilter day docId)) ∧
      List.Sorted apptLE res := by
  cases docId with
  | none =>
    have hp : (fun (a : Appointment) =>
        decide (midnightOf (1440 * day) ≤ a.start_datetime.time) &&
        decide (a.start_datetime.time < midnightOf (1440 * day) + 1440)) =
        specDayFilter day none := by
      funext a
      rw [midnightOf_day]
      simp [specDayFilter]
    refine ⟨_, rfl, ?_, List.sorted_insertionSort apptLE _⟩
    exact (List.perm_insertionSort apptLE _).trans (hp ▸ List.Perm.refl _)
  | some n =>
    have hn : n ≠ 0 := h n rfl
    have ht : truthy (some n) = true := by
      simp [truthy, hn]
    have hp : (fun (a : Appointment) =>
        a.doctor_id == n &&
        decide (midnightOf (1440 * day) ≤ a.start_datetime.time) &&
        decide (a.start_datetime.time < midnightOf (1440 * day) + 1440)) =
        specDayFilter day (some n) := by
      funext a
      rw [midnightOf_day]
      rfl
    have hend : list_appointments_endpoint db day (some n) =
        get_appointments_by_doctor_and_date db n { time := 1440 * day, aware := true } := by
      unfold list_appointments_endpoint
      rw [ht]
      rfl
    rw [hend, get_by_doctor_eq db n { time := 1440 * day, aware := true } rfl]
    refine ⟨_, rfl, ?_, List.sorted_insertionSort apptLE _⟩
    exact (List.perm_insertionSort apptLE _).trans (hp ▸ List.Perm.refl _)

/-- Witness for the amended C7: the unfiltered day-0 listing of
`storeC9`. -/
theorem list_by_date_filter_sorted_witness :
    ∃ res, list_appointments_endpoint storeC9 0 none = .ok res ∧
      res.Perm (storeC9.appointments.filter (specDayFilter 0 none)) ∧
      List.Sorted apptLE res :=
  list_by_date_filter_sorted storeC9 0 none (fun n hn => by cases hn)

/-- The C8 state: one doctor on record, no appointments. -/
def storeC8 : Store :=
  { doctors := [{ id := 1, full_name := "Dr. Jane Wilson",
                  specialization := "Neurology", is_active := true, created_at := 7 }],
    appointments := [], nextApptId := 1 }

/-- C8 counterexample: a PUT with a full_name payload changes the stored
doctor's full_name (the repo's own test updates specialization the same
way), so is_active is not the only mutable doctor field. -/
theorem doctor_update_changes_full_name :
    update_doctor_endpoint storeC8 1
      { full_name := some "Dr. Renamed", specialization := none, is_active := none } =
      .ok ({ doctors := [{ id := 1, full_name := "Dr. Renamed",
                           specialization := "Neurology", is_active := true,
                           created_at := 7 }],
             appointments := [], nextApptId := 1 },
           { id := 1, full_name := "Dr. Renamed", specialization := "Neurology",
             is_active := true, created_at := 7 }) ∧
    "Dr. Renamed" ≠ "Dr. Jane Wilson" :=
  ⟨rfl, by decide⟩

theorem applyDoctorUpdate_id_created (u : DoctorUpdate) (d : Doctor) :
    (applyDoctorUpdate u d).id = d.id ∧
    (applyDoctorUpdate u d).created_at = d.created_at := by
  unfold applyDoctorUpdate
  cases u.full_name <;> cases u.specialization <;> cases u.is_active <;> simp

theorem updateFirstDoctor_map_id_created (i : Nat) (u : DoctorUpdate) :
    ∀ l : List Doctor,
      (updateFirstDoctor i (applyDoctorUpdate u) l).map (fun d => (d.id, d.created_at)) =
        l.map (fun d => (d.id, d.created_at))
  | [] => rfl
  | d :: rest => by
    unfold updateFirstDoctor
    split
    · simp [(applyDoctorUpdate_id_created u d).1, (applyDoctorUpdate_id_created u d).2]
    · simp [updateFirstDoctor_map_id_created i u rest]

/-- C8 amended: the update endpoint may change full_name, specialization
and is_active (all three are exposed by `DoctorUpdate`), but any
successful update leaves every doctor's id and created_at unchanged and
leaves the appointment records and the appointment id counter
untouched. -/
theorem doctor_update_frame (db : Store) (i : Nat) (u : DoctorUpdate)
    (db2 : Store) (doc : Doctor)
    (h : update_doctor_endpoint db i u = .ok (db2, doc)) :
    db2.appointments = db.appointments ∧
    db2.nextApptId = db.nextApptId ∧
    db2.doctors.map (fun d => (d.id, d.created_at)) =
      db.doctors.map (fun d => (d.id, d.created_at)) := by
  unfold update_doctor_endpoint at h
  split at h
  · cases h
  · rename_i doc0 heq
    simp only [Except.ok.injEq, Prod.mk.injEq] at h
    obtain ⟨h1, h2⟩ := h
    rw [← h1]
    exact ⟨rfl, rfl, updateFirstDoctor_map_id_created i u db.doctors⟩

/-- Witness for the amended C8 at the concrete rename on `storeC8`. -/
theorem doctor_update_frame_witness :
    ∃ p : Store × Doctor,
      update_doctor_endpoint storeC8 1
        { full_name := some "Dr. Renamed", specialization := none,
          is_active := none } = .ok p ∧
      p.1.appointments = storeC8.appointments ∧
      p.1.nextApptId = storeC8.nextApptId ∧
      p.1.doctors.map (fun d => (d.id, d.created_at)) =
        storeC8.doctors.map (fun d => (d.id, d.created_at)) :=
  ⟨_, rfl, doctor_update_frame storeC8 1
    { full_name := some "Dr. Renamed", specialization := none,
      is_active := none } _ _ rfl⟩

/-- The C1 witness request: doctor 1, start 1030 for 30 minutes, inside
the stored [1000, 1060) appointment of doctor 1 in `storeC9`. -/
def reqC1 : AppointmentCreate :=
  { patient_id := 2, doctor_id := 1,
    start_datetime := { time := 1030, aware := true },
    duration_minutes := 30, reason := none }

/-- Witness for C1 at the concrete overlapping request `reqC1`. -/
theorem conflict_iff_overlap_same_doctor_witness :
    ((create_appointment storeC9 reqC1 500).2 = .error .SchedulingConflict ↔
      ∃ e ∈ storeC9.appointments, e.doctor_id = reqC1.doctor_id ∧
        specOverlap (ensure_timezone_aware reqC1.start_datetime).time
          ((ensure_timezone_aware reqC1.start_datetime).time + reqC1.duration_minutes) e) ∧
    (∀ e : Appointment,
      ((ensure_timezone_aware e.start_datetime).time + e.duration_minutes =
          (ensure_timezone_aware reqC1.start_datetime).time ∨
       (ensure_timezone_aware e.start_datetime).time =
          (ensure_timezone_aware reqC1.start_datetime).time + reqC1.duration_minutes) →
      ¬ specOverlap (ensure_timezone_aware reqC1.start_datetime).time
          ((ensure_timezone_aware reqC1.start_datetime).time + reqC1.duration_minutes) e) :=
  conflict_iff_overlap_same_doctor storeC9 reqC1 500
    { id := 1, full_name := "Dr. A", specialization := "Cardiology",
      is_active := true, created_at := 0 } rfl rfl (by decide)

/-- Witness for C5 at the concrete future-dated request `reqC9`. -/
theorem start_in_past_rejected_iff_witness :
    (reqC9.start_datetime.time ≤ 500 →
      SchedError.ScheduledInPast ∈ validationErrors reqC9 500 ∧
      schedule storeC9 reqC9 500 = .error (validationErrors reqC9 500)) ∧
    (500 < reqC9.start_datetime.time →
      SchedError.ScheduledInPast ∉ validationErrors reqC9 500 ∧
      ∀ es, schedule storeC9 reqC9 500 = .error es →
        SchedError.ScheduledInPast ∉ es) :=
  start_in_past_rejected_iff storeC9 reqC9 500 rfl

end PES
